import Mathlib

/-!
Verification of `Sources/CFreeTDS/include/CFreeTDS.h` from SQLClient-Swift.

The header is a set of C preprocessor conditionals wrapped in an include
guard.  We embed the relevant fragment of the preprocessor: a directive
tree, a state (the list of defined macros) and an evaluator that returns
the updated state together with the list of emitted `#include` directives.
The file itself is transcribed directive by directive from the source.
-/

/-- An emitted `#include` directive: either a quoted absolute path
(`#include "/abs/path.h"`) or an angle-bracket system include
(`#include <name.h>`). -/
inductive Inc where
  | abs (path : String)
  | sys (name : String)
deriving DecidableEq

/-- The fragment of the C preprocessor language used by `CFreeTDS.h`:
includes, `#define`, `#pragma once`, `#ifdef`/`#else`/`#endif` and
`#ifndef`/`#endif`, with sequencing. -/
inductive PP where
  | skip
  | seq (a b : PP)
  | inc (i : Inc)
  | define (m : String)
  | pragma
  | ifdefM (m : String) (t e : PP)
  | ifndefM (m : String) (t : PP)

/-- Preprocessor evaluation: given the list of defined macros, run a
directive tree, returning the updated macro list and the emitted
includes, in order. -/
def ppEval (defs : List String) : PP → List String × List Inc
  | .skip => (defs, [])
  | .seq a b =>
      ((ppEval (ppEval defs a).1 b).1,
       (ppEval defs a).2 ++ (ppEval (ppEval defs a).1 b).2)
  | .inc i => (defs, [i])
  | .define m => (m :: defs, [])
  | .pragma => (defs, [])
  | .ifdefM m t e => if m ∈ defs then ppEval defs t else ppEval defs e
  | .ifndefM m t => if m ∈ defs then (defs, []) else ppEval defs t

/-- Lines 6-17 of `CFreeTDS.h`: the platform conditionals.
`#ifdef __APPLE__` / `#ifdef __x86_64__` selecting the two vendor
headers from `/usr/local/opt/freetds/include/` (Apple, x86_64),
`/opt/homebrew/opt/freetds/include/` (Apple, otherwise) or the default
system include path (non-Apple). -/
def condIncludes : PP :=
  .ifdefM "__APPLE__"
    (.ifdefM "__x86_64__"
      (.seq (.inc (.abs "/usr/local/opt/freetds/include/sybdb.h"))
            (.inc (.abs "/usr/local/opt/freetds/include/sybfront.h")))
      (.seq (.inc (.abs "/opt/homebrew/opt/freetds/include/sybdb.h"))
            (.inc (.abs "/opt/homebrew/opt/freetds/include/sybfront.h"))))
    (.seq (.inc (.sys "sybdb.h")) (.inc (.sys "sybfront.h")))

/-- The whole of `CFreeTDS.h`: the `CFREETDS_H` include guard
(`#ifndef CFREETDS_H` / `#define CFREETDS_H` / `#endif`), the
`#pragma once`, and the platform conditionals. -/
def cFreeTDS_h : PP :=
  .ifndefM "CFREETDS_H"
    (.seq (.define "CFREETDS_H") (.seq .pragma condIncludes))

/-- Operating systems a build may target.  `macOS` and `iOS` are the
Apple systems (the compiler defines `__APPLE__` on them); the others
are representative non-Apple systems. -/
inductive OS where
  | macOS
  | iOS
  | linux
  | windows
  | freebsd
deriving DecidableEq

/-- Whether the compiler defines `__APPLE__` for this target system. -/
def OS.isApple : OS → Bool
  | .macOS => true
  | .iOS => true
  | _ => false

/-- CPU architectures a build may target.  `x86_64` is Intel 64-bit
(the compiler defines `__x86_64__`), `arm64` is Apple Silicon, and
`i386` / `armv7` are 32-bit architectures Apple toolchains have also
targeted. -/
inductive Arch where
  | x86_64
  | arm64
  | i386
  | armv7
deriving DecidableEq

/-- The predefined macros the header consults, as a function of the
build target: `__APPLE__` on Apple systems and `__x86_64__` on Intel
64-bit. -/
def targetDefines (os : OS) (arch : Arch) : List String :=
  (if os.isApple then ["__APPLE__"] else []) ++
  (if arch = Arch.x86_64 then ["__x86_64__"] else [])

/-- The includes emitted by one pass over `CFreeTDS.h` from an arbitrary
initial macro list. -/
def resolvedIncludesFull (defs : List String) : List Inc :=
  (ppEval defs cFreeTDS_h).2

/-- The includes emitted by `CFreeTDS.h` for a fresh translation unit on
the given build target. -/
def resolvedIncludes (os : OS) (arch : Arch) : List Inc :=
  resolvedIncludesFull (targetDefines os arch)

/-- Compiling a translation unit that includes `CFreeTDS.h` succeeds
exactly when every header it resolves to is present; `fs` says which
include targets the toolchain can find. -/
def compileSucceeds (fs : Inc → Bool) (os : OS) (arch : Arch) : Bool :=
  (resolvedIncludes os arch).all fs

/-- Modelled from the spec: the expected location of a vendor header of
the given name — `/usr/local/opt/freetds/include/` on Intel macOS
(Apple + x86_64), `/opt/homebrew/opt/freetds/include/` on Apple Silicon
macOS (Apple, otherwise), and the default system include path
elsewhere. -/
def expectedLocation (os : OS) (arch : Arch) (name : String) : Inc :=
  if os.isApple then
    if arch = Arch.x86_64 then .abs ("/usr/local/opt/freetds/include/" ++ name)
    else .abs ("/opt/homebrew/opt/freetds/include/" ++ name)
  else .sys name

/-- The last `/`-separated component of a path. -/
def lastComponent (p : String) : String :=
  String.mk (p.data.foldl (fun acc c => if c = '/' then [] else acc ++ [c]) [])

/-- The bare header file name an include resolves to. -/
def Inc.fileName : Inc → String
  | .sys n => n
  | .abs p => lastComponent p

/-- `n` successive inclusions of `CFreeTDS.h` in one translation unit:
the macro state threads through, the emitted includes concatenate. -/
def includeCFreeTDSn : Nat → List String → List String × List Inc
  | 0, defs => (defs, [])
  | n + 1, defs =>
      ((includeCFreeTDSn n (ppEval defs cFreeTDS_h).1).1,
       (ppEval defs cFreeTDS_h).2 ++
         (includeCFreeTDSn n (ppEval defs cFreeTDS_h).1).2)

/-! ### Helper lemmas -/

/-- The platform conditionals only emit includes; they leave the macro
state unchanged. -/
lemma condIncludes_state (defs : List String) :
    (ppEval defs condIncludes).1 = defs := by
  unfold condIncludes
  by_cases hA : "__APPLE__" ∈ defs <;> by_cases hX : "__x86_64__" ∈ defs <;>
    simp [ppEval, hA, hX]

/-- After one pass over the header, the guard macro is defined. -/
lemma guard_mem (defs : List String) :
    "CFREETDS_H" ∈ (ppEval defs cFreeTDS_h).1 := by
  unfold cFreeTDS_h
  by_cases h : "CFREETDS_H" ∈ defs
  · simp [ppEval, h]
  · simp [ppEval, h, condIncludes_state]
    split_ifs <;> simp

/-- With the guard macro already defined, a pass over the header is a
no-op: no state change and no includes. -/
lemma guarded_noop (defs : List String) (h : "CFREETDS_H" ∈ defs) :
    ppEval defs cFreeTDS_h = (defs, []) := by
  unfold cFreeTDS_h
  simp [ppEval, h]

/-- Any number of inclusions starting from a state where the guard is
defined is a no-op. -/
lemma includeCFreeTDSn_guarded (n : Nat) (defs : List String)
    (h : "CFREETDS_H" ∈ defs) : includeCFreeTDSn n defs = (defs, []) := by
  induction n with
  | zero => rfl
  | succ k ih => simp [includeCFreeTDSn, guarded_noop defs h, ih]

/-- The resolved includes agree with the spec's expected locations on
every target. -/
lemma resolved_eq_expected (os : OS) (arch : Arch) :
    resolvedIncludes os arch =
      [expectedLocation os arch "sybdb.h",
       expectedLocation os arch "sybfront.h"] := by
  cases os <;> cases arch <;> rfl

/-- Extra defined macros that are none of the three macros the header
consults do not change the resolved includes. -/
lemma resolvedFull_extra (os : OS) (arch : Arch) (extra : List String)
    (h1 : "__APPLE__" ∉ extra) (h2 : "__x86_64__" ∉ extra)
    (h3 : "CFREETDS_H" ∉ extra) :
    resolvedIncludesFull (targetDefines os arch ++ extra) =
      resolvedIncludes os arch := by
  cases os <;> cases arch <;>
    simp [resolvedIncludes, resolvedIncludesFull, targetDefines, cFreeTDS_h,
      condIncludes, ppEval, OS.isApple, List.mem_append, List.mem_cons,
      h1, h2, h3]

/-! ### Claims -/

/-- C1: for every build target, the include locations resolve by
platform — on Intel macOS both vendor headers come from the absolute
prefix `/usr/local/opt/freetds/include/`, on Apple Silicon macOS both
come from `/opt/homebrew/opt/freetds/include/`, and on every non-Apple
platform both are angle-bracket includes from the default system
include path. -/
theorem platform_include_locations (os : OS) (arch : Arch) :
    (os = OS.macOS → arch = Arch.x86_64 →
      resolvedIncludes os arch =
        [Inc.abs "/usr/local/opt/freetds/include/sybdb.h",
         Inc.abs "/usr/local/opt/freetds/include/sybfront.h"]) ∧
    (os = OS.macOS → arch = Arch.arm64 →
      resolvedIncludes os arch =
        [Inc.abs "/opt/homebrew/opt/freetds/include/sybdb.h",
         Inc.abs "/opt/homebrew/opt/freetds/include/sybfront.h"]) ∧
    (OS.isApple os = false →
      resolvedIncludes os arch = [Inc.sys "sybdb.h", Inc.sys "sybfront.h"]) := by
  cases os <;> cases arch <;> decide

/-- Witness for C1: the Intel macOS case, instantiated. -/
theorem platform_include_locations_witness :
    resolvedIncludes OS.macOS Arch.x86_64 =
      [Inc.abs "/usr/local/opt/freetds/include/sybdb.h",
       Inc.abs "/usr/local/opt/freetds/include/sybfront.h"] :=
  (platform_include_locations OS.macOS Arch.x86_64).1 rfl rfl

/-- C2: on every target, compiling a translation unit that includes the
header succeeds if and only if the two vendor headers `sybdb.h` and
`sybfront.h` are present at the platform's expected location; the
outcome is a deterministic function of the target and of header
presence. -/
theorem compile_iff_headers_present (os : OS) (arch : Arch) (fs : Inc → Bool) :
    compileSucceeds fs os arch = true ↔
      (fs (expectedLocation os arch "sybdb.h") = true ∧
       fs (expectedLocation os arch "sybfront.h") = true) := by
  unfold compileSucceeds
  rw [resolved_eq_expected]
  simp

/-- C3: on every platform the header exposes exactly the pair
`sybdb.h`, `sybfront.h`, in that order — no branch adds another header
or omits one of the two. -/
theorem exposed_header_names (os : OS) (arch : Arch) :
    (resolvedIncludes os arch).map Inc.fileName = ["sybdb.h", "sybfront.h"] := by
  cases os <;> cases arch <;> rfl

/-- C4: the resolution is a total function of exactly the pair
(operating system, architecture): for every target exactly one of the
three outcomes (the `/usr/local` pair, the `/opt/homebrew` pair, the
system pair) holds, and any extra defined macros beyond the ones the
header consults leave the result unchanged. -/
theorem resolution_total_function (os : OS) (arch : Arch) :
    ((resolvedIncludes os arch =
        [Inc.abs "/usr/local/opt/freetds/include/sybdb.h",
         Inc.abs "/usr/local/opt/freetds/include/sybfront.h"] ∧
      resolvedIncludes os arch ≠
        [Inc.abs "/opt/homebrew/opt/freetds/include/sybdb.h",
         Inc.abs "/opt/homebrew/opt/freetds/include/sybfront.h"] ∧
      resolvedIncludes os arch ≠ [Inc.sys "sybdb.h", Inc.sys "sybfront.h"]) ∨
     (resolvedIncludes os arch ≠
        [Inc.abs "/usr/local/opt/freetds/include/sybdb.h",
         Inc.abs "/usr/local/opt/freetds/include/sybfront.h"] ∧
      resolvedIncludes os arch =
        [Inc.abs "/opt/homebrew/opt/freetds/include/sybdb.h",
         Inc.abs "/opt/homebrew/opt/freetds/include/sybfront.h"] ∧
      resolvedIncludes os arch ≠ [Inc.sys "sybdb.h", Inc.sys "sybfront.h"]) ∨
     (resolvedIncludes os arch ≠
        [Inc.abs "/usr/local/opt/freetds/include/sybdb.h",
         Inc.abs "/usr/local/opt/freetds/include/sybfront.h"] ∧
      resolvedIncludes os arch ≠
        [Inc.abs "/opt/homebrew/opt/freetds/include/sybdb.h",
         Inc.abs "/opt/homebrew/opt/freetds/include/sybfront.h"] ∧
      resolvedIncludes os arch = [Inc.sys "sybdb.h", Inc.sys "sybfront.h"])) ∧
    (∀ extra1 extra2 : List String,
      "__APPLE__" ∉ extra1 → "__x86_64__" ∉ extra1 → "CFREETDS_H" ∉ extra1 →
      "__APPLE__" ∉ extra2 → "__x86_64__" ∉ extra2 → "CFREETDS_H" ∉ extra2 →
      resolvedIncludesFull (targetDefines os arch ++ extra1) =
        resolvedIncludesFull (targetDefines os arch ++ extra2)) := by
  constructor
  · cases os <;> cases arch <;> decide
  · intro extra1 extra2 a1 x1 c1 a2 x2 c2
    rw [resolvedFull_extra os arch extra1 a1 x1 c1,
        resolvedFull_extra os arch extra2 a2 x2 c2]

/-- Witness for C4: the determinism half on a concrete non-Apple target
with a concrete irrelevant extra macro. -/
theorem resolution_total_function_witness :
    resolvedIncludesFull (targetDefines OS.linux Arch.arm64 ++ ["FOO"]) =
      resolvedIncludesFull (targetDefines OS.linux Arch.arm64 ++ []) :=
  (resolution_total_function OS.linux Arch.arm64).2 ["FOO"] []
    (by decide) (by decide) (by decide) (by decide) (by decide) (by decide)

/-- C5 counterexample: the claim says an Apple target resolves to the
`/opt/homebrew` paths if and only if its architecture is Apple Silicon
(arm64), but the Apple target with the 32-bit Intel architecture `i386`
resolves to the `/opt/homebrew` paths even though `i386` is not
`arm64`. -/
theorem homebrew_iff_apple_silicon_cex :
    ¬ ((resolvedIncludes OS.macOS Arch.i386 =
          [Inc.abs "/opt/homebrew/opt/freetds/include/sybdb.h",
           Inc.abs "/opt/homebrew/opt/freetds/include/sybfront.h"]) ↔
        Arch.i386 = Arch.arm64) := by
  decide

/-- C5 (amended): on Apple targets the selection is keyed on `x86_64`
alone — the `/usr/local/opt/freetds` paths are selected if and only if
the architecture is Intel (`x86_64`), and the `/opt/homebrew/opt/freetds`
paths are selected if and only if the architecture is not `x86_64`
(Apple Silicon included, but also any other non-Intel architecture). -/
theorem apple_branch_keyed_on_x86_64 (os : OS) (arch : Arch)
    (h : OS.isApple os = true) :
    (resolvedIncludes os arch =
        [Inc.abs "/usr/local/opt/freetds/include/sybdb.h",
         Inc.abs "/usr/local/opt/freetds/include/sybfront.h"] ↔
      arch = Arch.x86_64) ∧
    (resolvedIncludes os arch =
        [Inc.abs "/opt/homebrew/opt/freetds/include/sybdb.h",
         Inc.abs "/opt/homebrew/opt/freetds/include/sybfront.h"] ↔
      arch ≠ Arch.x86_64) := by
  revert h
  cases os <;> cases arch <;> decide

/-- Witness for the amended C5: on Apple Silicon macOS the Homebrew
paths are selected. -/
theorem apple_branch_keyed_on_x86_64_witness :
    resolvedIncludes OS.macOS Arch.arm64 =
      [Inc.abs "/opt/homebrew/opt/freetds/include/sybdb.h",
       Inc.abs "/opt/homebrew/opt/freetds/include/sybfront.h"] :=
  ((apple_branch_keyed_on_x86_64 OS.macOS Arch.arm64 rfl).2).mpr (by decide)

/-- C6: the resolution is keyed only on operating system and CPU
architecture and equals a fixed table whose macOS entries are the two
absolute string-literal prefixes baked into the file; for a fixed
target the result is this constant, with nothing else feeding in. -/
theorem fixed_path_table (os : OS) (arch : Arch) :
    resolvedIncludes os arch =
      (if OS.isApple os then
        if arch = Arch.x86_64 then
          [Inc.abs "/usr/local/opt/freetds/include/sybdb.h",
           Inc.abs "/usr/local/opt/freetds/include/sybfront.h"]
        else
          [Inc.abs "/opt/homebrew/opt/freetds/include/sybdb.h",
           Inc.abs "/opt/homebrew/opt/freetds/include/sybfront.h"]
      else [Inc.sys "sybdb.h", Inc.sys "sybfront.h"]) := by
  cases os <;> cases arch <;> rfl

/-- C7: including the header `n ≥ 1` times is equivalent to including it
exactly once — the `CFREETDS_H` include guard makes repeated inclusion
idempotent, so the vendor headers are forwarded at most once (at most
two includes in total) per translation unit. -/
theorem repeated_inclusion_idempotent (defs : List String) (n : Nat)
    (hn : 1 ≤ n) :
    includeCFreeTDSn n defs = includeCFreeTDSn 1 defs ∧
    (includeCFreeTDSn n defs).2.length ≤ 2 := by
  have hone : ∀ m : Nat, includeCFreeTDSn (m + 1) defs = includeCFreeTDSn 1 defs := by
    intro m
    have hg := includeCFreeTDSn_guarded m (ppEval defs cFreeTDS_h).1 (guard_mem defs)
    simp [includeCFreeTDSn, hg]
  obtain ⟨m, rfl⟩ : ∃ m, n = m + 1 := ⟨n - 1, (Nat.succ_pred_eq_of_pos hn).symm⟩
  refine ⟨hone m, ?_⟩
  rw [hone m]
  have hlen : (ppEval defs cFreeTDS_h).2.length ≤ 2 := by
    unfold cFreeTDS_h condIncludes
    by_cases hC : "CFREETDS_H" ∈ defs <;>
      by_cases hA : "__APPLE__" ∈ ("CFREETDS_H" :: defs) <;>
      by_cases hX : "__x86_64__" ∈ ("CFREETDS_H" :: defs) <;>
      simp [ppEval, hC, hA, hX]
  simpa [includeCFreeTDSn] using hlen

/-- Witness for C7: two inclusions from an empty macro state equal one. -/
theorem repeated_inclusion_idempotent_witness :
    includeCFreeTDSn 2 [] = includeCFreeTDSn 1 [] ∧
    (includeCFreeTDSn 2 []).2.length ≤ 2 :=
  repeated_inclusion_idempotent [] 2 (by decide)

/-- C8: on Apple targets the Homebrew paths are selected for every
architecture other than `x86_64` (the code never tests for `arm64`
specifically), so any non-Intel Apple target falls into the Homebrew
branch; moreover all non-Intel Apple architectures resolve alike. -/
theorem apple_non_intel_homebrew (os : OS) (arch : Arch)
    (hA : OS.isApple os = true) (hX : arch ≠ Arch.x86_64) :
    resolvedIncludes os arch =
      [Inc.abs "/opt/homebrew/opt/freetds/include/sybdb.h",
       Inc.abs "/opt/homebrew/opt/freetds/include/sybfront.h"] := by
  revert hA hX
  cases os <;> cases arch <;> decide

/-- Witness for C8: a 32-bit Apple target (macOS, armv7) lands in the
Homebrew branch. -/
theorem apple_non_intel_homebrew_witness :
    resolvedIncludes OS.macOS Arch.armv7 =
      [Inc.abs "/opt/homebrew/opt/freetds/include/sybdb.h",
       Inc.abs "/opt/homebrew/opt/freetds/include/sybfront.h"] :=
  apple_non_intel_homebrew OS.macOS Arch.armv7 rfl (by decide)

/-- C9: on every non-Apple platform the resolution ignores the CPU
architecture — any two architectures give the same includes, namely the
system includes `<sybdb.h>` and `<sybfront.h>`. -/
theorem non_apple_arch_independent (os : OS) (a1 a2 : Arch)
    (h : OS.isApple os = false) :
    resolvedIncludes os a1 = resolvedIncludes os a2 ∧
    resolvedIncludes os a1 = [Inc.sys "sybdb.h", Inc.sys "sybfront.h"] := by
  revert h
  cases os <;> cases a1 <;> cases a2 <;> decide

/-- Witness for C9: Linux on `x86_64` and on `arm64` resolve alike. -/
theorem non_apple_arch_independent_witness :
    resolvedIncludes OS.linux Arch.x86_64 = resolvedIncludes OS.linux Arch.arm64 ∧
    resolvedIncludes OS.linux Arch.x86_64 =
      [Inc.sys "sybdb.h", Inc.sys "sybfront.h"] :=
  non_apple_arch_independent OS.linux Arch.x86_64 Arch.arm64 rfl
